import Mathlib

/-!
Shallow embedding of the ShadowCrawler indexing core.

The embedding covers the catalog store (class VideoStore, src/unnamed/part_004)
and the crawler / extractor / storage analyzer (class VideoIndexer,
src/unnamed/part_003).  SQLite's table is modelled as a list of rows in
storage order; asynchronous external effects (ffprobe, ffmpeg, filesystem
stat, file reads, the clock) are modelled as explicit environment records,
with a thrown JS exception represented as the corresponding Option being
none, and machine numbers as Int / Nat / Rat.
-/

/-- One row of the `videos` table / one VideoStoreEntry (part_004 lines 4-21).
`duration` and `fps` are REAL columns, modelled as Option Rat; a JS NaN fps
is modelled as none (SQLite stores NaN as NULL).  `blobUrl`/`isPreloaded`
are presentation-layer pass-through fields. -/
structure VideoStoreEntry where
  id : String
  folder_name : String
  full_path : String
  file_name : String
  file_size : Int
  creation_date : Int
  modified_date : Int
  duration : Option Rat
  width : Option Int
  height : Option Int
  fps : Option Rat
  codec : Option String
  thumbnail_path : Option String
  indexed_at : Int
  blobUrl : Option String
  isPreloaded : Bool
deriving DecidableEq

namespace VideoStore

/-- The store's connection state: none models `this.db === null`
(part_004 line 25); some rows models a loaded database whose `videos`
table holds the given rows in storage order. -/
abbrev DbState := Option (List VideoStoreEntry)

/-- Models `VideoStore.initialize` (part_004 lines 34-66): loads the
database and creates the table when `this.db` is null, otherwise a no-op.
The external failure modes of `Database.load` are outside the scope of the
claims, so loading is modelled as succeeding with an empty table. -/
def initDb (s : DbState) : DbState :=
  match s with
  | none => some []
  | some rows => some rows

/-- The row-retention predicate of SQLite's INSERT OR REPLACE on the
`videos` table (part_004 lines 73-92, 104-114): a pre-existing row
survives the insert of `v` iff it conflicts with neither the `id`
PRIMARY KEY nor the UNIQUE `full_path` column. -/
def keepRow (v e : VideoStoreEntry) : Bool :=
  !(e.id == v.id) && !(e.full_path == v.full_path)

/-- INSERT OR REPLACE (part_004 lines 104-114): every row conflicting on
`id` or `full_path` is deleted, then the new row is appended in storage
order. -/
def upsertRow (rows : List VideoStoreEntry) (v : VideoStoreEntry) : List VideoStoreEntry :=
  rows.filter (keepRow v) ++ [v]

/-- Models `VideoStore.addVideo` (part_004 lines 100-115):
`await this.initialize()`, then `if (!this.db) return`, then the
INSERT OR REPLACE. -/
def addVideo (s : DbState) (v : VideoStoreEntry) : DbState :=
  match initDb s with
  | none => s
  | some rows => some (upsertRow rows v)

/-- `SELECT * FROM videos WHERE full_path = ?` followed by
`result.length > 0 ? result[0] : null` (part_004 lines 417-422). -/
def selectByPath (rows : List VideoStoreEntry) (p : String) : Option VideoStoreEntry :=
  (rows.filter (fun e => e.full_path == p)).head?

/-- Models `VideoStore.getVideoByPath` (part_004 lines 411-427): throws
"Database not initialized" when `this.db` is null; otherwise runs the
select inside try/catch, returning null on a query error (`qerr` models
whether the underlying select rejects) and null when no row matches. -/
def getVideoByPath (s : DbState) (qerr : Bool) (p : String) :
    Except String (Option VideoStoreEntry) :=
  match s with
  | none => Except.error "Database not initialized"
  | some rows => Except.ok (if qerr then none else selectByPath rows p)

/-- `SELECT * FROM videos WHERE id = ?` with `result[0]` (part_004
lines 136-140). -/
def selectById (rows : List VideoStoreEntry) (i : String) : Option VideoStoreEntry :=
  (rows.filter (fun e => e.id == i)).head?

/-- Models `VideoStore.getVideo` (part_004 lines 132-141): initializes
first, then the point lookup by id. -/
def getVideo (s : DbState) (i : String) : Option VideoStoreEntry × DbState :=
  match initDb s with
  | none => (none, s)
  | some rows => (selectById rows i, some rows)

/-- Models `VideoStore.clearVideos` (part_004 lines 150-155): initializes
first, then `DELETE FROM videos`. -/
def clearVideos (s : DbState) : DbState :=
  match initDb s with
  | none => s
  | some _ => some []

/-- Byte-order comparison on TEXT columns (SQLite BINARY collation),
as a Bool-valued less-or-equal. -/
def strLe (a b : String) : Bool := !(decide (b < a))

/-- The ORDER BY comparator selected by the `switch (sortBy)` blocks
(part_004 lines 200-226 and 243-269): eight recognized sort keys, any
other string falling to the initial `'creation_date DESC'`. -/
def orderKeyLe (sortBy : String) (a b : VideoStoreEntry) : Bool :=
  match sortBy with
  | "creation_date_asc" => decide (a.creation_date ≤ b.creation_date)
  | "creation_date_desc" => decide (b.creation_date ≤ a.creation_date)
  | "modified_date_asc" => decide (a.modified_date ≤ b.modified_date)
  | "modified_date_desc" => decide (b.modified_date ≤ a.modified_date)
  | "name_asc" => strLe a.file_name b.file_name
  | "name_desc" => strLe b.file_name a.file_name
  | "size_asc" => decide (a.file_size ≤ b.file_size)
  | "size_desc" => decide (b.file_size ≤ a.file_size)
  | _ => decide (b.creation_date ≤ a.creation_date)

/-- Stable insertion of one element for the ORDER BY model. -/
def insertLe (le : α → α → Bool) (x : α) : List α → List α
  | [] => [x]
  | y :: ys => if le x y then x :: y :: ys else y :: insertLe le x ys

/-- Deterministic stable sort modelling the database's ORDER BY: ties keep
storage order. -/
def sortByLe (le : α → α → Bool) : List α → List α
  | [] => []
  | x :: xs => insertLe le x (sortByLe le xs)

/-- `SELECT * FROM videos ORDER BY ...` for a sort key. -/
def selectSorted (rows : List VideoStoreEntry) (sortBy : String) : List VideoStoreEntry :=
  sortByLe (orderKeyLe sortBy) rows

/-- Models `VideoStore.getVideosSorted` (part_004 lines 196-233). -/
def getVideosSorted (s : DbState) (sortBy : String) :
    List VideoStoreEntry × DbState :=
  match initDb s with
  | none => ([], s)
  | some rows => (selectSorted rows sortBy, some rows)

/-- The result shape of the paginated queries (part_004 line 239). -/
structure PageResult where
  videos : List VideoStoreEntry
  totalCount : Nat
  hasMore : Bool
deriving DecidableEq

/-- The body of `getVideosPaginated` after initialization (part_004 lines
243-286): `offset = (page - 1) * pageSize`, a COUNT(*) for the total, a
`LIMIT pageSize OFFSET offset` over the ordered rows, and
`hasMore = offset + videos.length < totalCount`. -/
def selectPage (rows : List VideoStoreEntry) (sortBy : String)
    (page pageSize : Nat) : PageResult :=
  let offset := (page - 1) * pageSize
  let totalCount := rows.length
  let videos := ((selectSorted rows sortBy).drop offset).take pageSize
  { videos := videos
    totalCount := totalCount
    hasMore := decide (offset + videos.length < totalCount) }

/-- Models `VideoStore.getVideosPaginated` (part_004 lines 235-287):
initializes first, then the paginated select. -/
def getVideosPaginated (s : DbState) (sortBy : String) (page pageSize : Nat) :
    PageResult × DbState :=
  match initDb s with
  | none => ({ videos := [], totalCount := 0, hasMore := false }, s)
  | some rows => (selectPage rows sortBy page pageSize, some rows)

/-- Bool-valued contiguous-sublist test on character lists, modelling
SQL `LIKE` with a pattern enclosed in percent signs. -/
def charsContain (needle : List Char) : List Char → Bool
  | [] => needle.isEmpty
  | c :: cs => needle.isPrefixOf (c :: cs) || charsContain needle cs

/-- Case-insensitive substring match, modelling
`LOWER(column) LIKE '%' || LOWER(query) || '%'`. -/
def likeContains (query s : String) : Bool :=
  charsContain query.toLower.data s.toLower.data

/-- The WHERE clause of `searchVideos` (part_004 lines 183-191): any of
the file name, folder name, or codec matches the lowered substring; a
NULL codec never matches. -/
def searchMatch (query : String) (e : VideoStoreEntry) : Bool :=
  likeContains query e.file_name || likeContains query e.folder_name ||
    (match e.codec with
     | some c => likeContains query c
     | none => false)

/-- Models `VideoStore.searchVideos` (part_004 lines 179-194): initializes
first, then the filtered select ordered by creation date descending. -/
def searchVideos (s : DbState) (query : String) :
    List VideoStoreEntry × DbState :=
  match initDb s with
  | none => ([], s)
  | some rows =>
      (sortByLe (orderKeyLe "creation_date_desc") (rows.filter (searchMatch query)),
       some rows)

/-- Models `VideoStore.getFolders` (part_004 lines 168-177): initializes
first, then `SELECT DISTINCT folder_name ... ORDER BY folder_name`. -/
def getFolders (s : DbState) : List String × DbState :=
  match initDb s with
  | none => ([], s)
  | some rows =>
      ((sortByLe strLe (rows.map (fun e => e.folder_name))).eraseDups, some rows)

/-- Models `VideoStore.getVideosByFolder` (part_004 lines 157-166). -/
def getVideosByFolder (s : DbState) (folderName : String) :
    List VideoStoreEntry × DbState :=
  match initDb s with
  | none => ([], s)
  | some rows =>
      (sortByLe (orderKeyLe "creation_date_desc")
        (rows.filter (fun e => e.folder_name == folderName)), some rows)

/-- Models `VideoStore.getVideosByFolderPaginated` (part_004 lines
289-345): the folder-scoped COUNT and LIMIT/OFFSET select. -/
def getVideosByFolderPaginated (s : DbState) (folderName sortBy : String)
    (page pageSize : Nat) : PageResult × DbState :=
  match initDb s with
  | none => ({ videos := [], totalCount := 0, hasMore := false }, s)
  | some rows =>
      (selectPage (rows.filter (fun e => e.folder_name == folderName)) sortBy page pageSize,
       some rows)

/-- The store invariant of claim C1: full paths are pairwise distinct. -/
def pathsUnique (rows : List VideoStoreEntry) : Prop :=
  rows.Pairwise (fun a b => a.full_path ≠ b.full_path)

end VideoStore

/-! ## VideoIndexer (src/unnamed/part_003) -/

/-- One element of ffprobe's `streams[]` array, with undefined/missing
JSON fields as none (part_003 lines 526-537). -/
structure StreamInfo where
  codec_type : String
  width : Option Int
  height : Option Int
  codec_name : Option String
  r_frame_rate : Option String
deriving DecidableEq

/-- ffprobe's `format` object (part_003 lines 533, 739): the fields the
indexer reads, as raw JSON strings/numbers with missing fields as none. -/
structure FormatInfo where
  duration : Option String
  size : Option String
deriving DecidableEq

/-- The parsed ffprobe JSON document (part_003 lines 525-526). -/
structure FfprobeData where
  streams : Option (List StreamInfo)
  format : Option FormatInfo
deriving DecidableEq

/-- The result of `getFileStats` (part_003 lines 432-482): seconds-since-
epoch times and the byte size.  `getFileStats` absorbs every failure
through its internal fallbacks (probe-reported creation time, then
current time), so it is modelled as a total environment function. -/
structure FileStat where
  mtime : Int
  ctime : Int
  size : Int
deriving DecidableEq

/-- The metadata object returned by `extractVideoMetadata` on success
(part_003 lines 484-491, 532-539). -/
structure VideoMeta where
  duration : Option Rat
  width : Option Int
  height : Option Int
  fps : Option Rat
  codec : Option String
  thumbnail_path : Option String
deriving DecidableEq

/-- The external world seen by one crawl: the ffprobe availability probe,
the per-file ffprobe invocation, thumbnail generation, the filesystem
stat, the JS numeric parsers and the clock.  A JS value of none models a
thrown exception (for executions) or NaN (for the parsers); the
environment is a fixed function, so a crawl repeated under the same
environment sees identical tool responses and stat times. -/
structure CrawlEnv where
  /-- `Command.create('ffprobe', ['-version']).execute()` (part_003 lines
  496-498): none models a rejected execution, some c a completed one with
  exit code c. -/
  versionCode : Option Int
  /-- The per-file ffprobe metadata invocation (part_003 lines 507-525):
  none models a rejected execution; the inner Option is the JSON.parse of
  stdout, none modelling malformed output. -/
  probe : String → Option (Int × Option FfprobeData)
  /-- `generateThumbnail` (part_003 lines 558-622): its own try/catch
  returns undefined on every failure, so it is a total function. -/
  thumbnail : String → Option String
  /-- `getFileStats` (part_003 lines 432-482), total via its fallbacks. -/
  stat : String → FileStat
  /-- JS `parseFloat` (part_003 line 533): none models NaN. -/
  parseFloatNum : String → Option Rat
  /-- JS `Number(...)` used in `parseFps` (part_003 line 551): none
  models NaN. -/
  parseNum : String → Option Rat
  /-- `Math.floor(Date.now() / 1000)` (part_003 lines 167, 352). -/
  nowSec : Int

namespace VideoIndexer

/-- The fixed skip-set of OS/metadata junk file names (part_003 lines
52-74). -/
def filesToSkip : List String :=
  [".DS_Store", "Thumbs.db", "desktop.ini", ".Spotlight-V100", ".Trashes",
   ".fseventsd", ".TemporaryItems", ".VolumeIcon.icns", ".apdisk",
   ".localized", ".metadata_never_index", ".parentlock", ".symlinks",
   ".VolumeIcon.ico", "ehthumbs.db", "ehthumbs_vista.db", "Folder.jpg",
   "Folder.gif", "Folder.png", "desktop.ini", "Thumbs.db:encryptable"]

/-- The allow-list of video container extensions (part_003 line 47). -/
def videoExtensions : List String :=
  [".mp4", ".avi", ".mov", ".mkv", ".webm", ".flv", ".wmv", ".m4v",
   ".mpg", ".mpeg", ".3gp", ".ogv"]

/-- The `extname` path helper (part_003 line 416): the substring after
the last dot, or the empty string when the name has no dot. -/
def jsExtname (name : String) : String :=
  if name.data.contains '.' then
    String.mk ((name.data.reverse.takeWhile (fun c => c ≠ '.')).reverse)
  else ""

/-- Character-wise lower-casing (`.toLowerCase()`), written over the
character list so that it evaluates by kernel reduction. -/
def jsToLower (s : String) : String :=
  String.mk (s.data.map Char.toLower)

/-- Models `VideoIndexer.isVideoFile` (part_003 lines 409-430): skip-set
check, empty-extension rejection, then membership of the lower-cased
dotted extension in the allow-list. -/
def isVideoFile (filename : String) : Bool :=
  if filesToSkip.contains filename then false
  else
    let ext := jsToLower (jsExtname filename)
    if ext == "" then false
    else videoExtensions.contains ("." ++ ext)

/-- The character class `[a-zA-Z0-9_-]` of the sanitizing regex
(part_003 line 625). -/
def idCharAllowed (c : Char) : Bool :=
  ('a' ≤ c && c ≤ 'z') || ('A' ≤ c && c ≤ 'Z') || ('0' ≤ c && c ≤ '9') ||
    c == '_' || c == '-'

/-- `.replace(/[^a-zA-Z0-9_-]/g, '_')` (part_003 line 625). -/
def sanitizeId (s : String) : String :=
  String.mk (s.data.map (fun c => if idCharAllowed c then c else '_'))

/-- Models `VideoIndexer.generateId` (part_003 lines 624-626).  The source
interpolates `basename(folderPath)` without awaiting it; `basename` from
the path API returns a Promise, so the template literal stringifies the
pending Promise as "[object Promise]" and the folder path does not reach
the identifier.  The sanitized result therefore depends on the file name
alone. -/
def generateId (fileName : String) (folderPath : String) : String :=
  let _ := folderPath
  sanitizeId ("[object Promise]_" ++ fileName)

/-- The identifier the specification prescribes, modelled from the spec
(section 4.4): sanitized "parentFolderName_fileName" where
parentFolderName is the last path component of the folder path.  Kept
only to compare with the source's `generateId`. -/
def generateIdSpec (fileName : String) (folderPath : String) : String :=
  sanitizeId
    (String.mk ((folderPath.data.reverse.takeWhile (fun c => c ≠ '/')).reverse)
      ++ "_" ++ fileName)

/-- Models `VideoIndexer.parseFps` (part_003 lines 548-556): undefined,
empty or "0/0" input gives undefined; otherwise the string splits at '/',
both parts go through `Number`, and a truthy non-zero denominator yields
num/den.  A NaN numerator makes the JS result NaN, which the REAL column
stores as NULL; both are modelled as none. -/
def parseFps (env : CrawlEnv) (fpsStr : Option String) : Option Rat :=
  match fpsStr with
  | none => none
  | some s =>
    if s == "" || s == "0/0" then none
    else
      let parts := s.splitOn "/"
      let num := env.parseNum (parts.getD 0 "")
      let den := (parts.drop 1).head?.bind env.parseNum
      match den with
      | some d => if d ≠ 0 then num.map (fun n => n / d) else none
      | none => none

/-- `data.streams?.find((s) => s.codec_type === 'video')` (part_003
line 526). -/
def findVideoStream (data : FfprobeData) : Option StreamInfo :=
  data.streams.bind (List.find? (fun s => s.codec_type == "video"))

/-- `parseFloat(data.format?.duration) || undefined` (part_003 line 533):
a missing format or duration parses to NaN, and a falsy result (NaN or 0)
becomes undefined. -/
def parseDuration (env : CrawlEnv) (data : FfprobeData) : Option Rat :=
  match data.format.bind (fun f => f.duration) with
  | none => none
  | some s =>
    match env.parseFloatNum s with
    | none => none
    | some q => if q == 0 then none else some q

/-- `videoStream.width || undefined` style field access (part_003 lines
534-537): a missing or zero value becomes undefined; an empty codec name
is falsy and becomes undefined. -/
def truthyInt (v : Option Int) : Option Int :=
  match v with
  | none => none
  | some n => if n == 0 then none else some n

/-- The try-block of `extractVideoMetadata` (part_003 lines 492-541),
with Except.error modelling a thrown exception: a rejected version probe
or metadata probe throws; a completed metadata probe with non-zero exit
throws (`throw new Error('ffprobe failed')`); malformed stdout makes
JSON.parse throw; a completed version probe with non-zero exit and a
missing video stream return null without throwing. -/
def extractBody (env : CrawlEnv) (filePath : String) :
    Except Unit (Option VideoMeta) :=
  match env.versionCode with
  | none => Except.error ()
  | some testCode =>
    if testCode ≠ 0 then Except.ok none
    else
      match env.probe filePath with
      | none => Except.error ()
      | some (code, parsed) =>
        if code ≠ 0 then Except.error ()
        else
          match parsed with
          | none => Except.error ()
          | some data =>
            match findVideoStream data with
            | none => Except.ok none
            | some vs =>
              Except.ok (some
                { duration := parseDuration env data
                  width := truthyInt vs.width
                  height := truthyInt vs.height
                  fps := parseFps env vs.r_frame_rate
                  codec :=
                    match vs.codec_name with
                    | some c => if c == "" then none else some c
                    | none => none
                  thumbnail_path := env.thumbnail filePath })

/-- Models `VideoIndexer.extractVideoMetadata` (part_003 lines 484-546):
the whole body sits in try/catch whose catch returns null, so every
thrown exception is absorbed into the null result. -/
def extractVideoMetadata (env : CrawlEnv) (filePath : String) : Option VideoMeta :=
  match extractBody env filePath with
  | Except.ok r => r
  | Except.error _ => none

/-- `await join(directoryPath, entry.name)` (part_003 lines 132, 321),
with the separator fixed to '/'. -/
def joinPath (dir name : String) : String := dir ++ "/" ++ name

/-- The `basename` path helper: the component after the last '/'. -/
def jsBasename (p : String) : String :=
  String.mk ((p.data.reverse.takeWhile (fun c => c ≠ '/')).reverse)

/-- The `dirname` path helper: everything before the last '/'. -/
def jsDirname (p : String) : String :=
  String.mk (((p.data.reverse.dropWhile (fun c => c ≠ '/')).drop 1).reverse)

/-- The VideoIndexEntry built by `processFilesInDirectory` (part_003
lines 338-353): `file_size` comes from the filesystem stat. -/
def processFilesEntry (env : CrawlEnv) (dir fname : String) (md : VideoMeta) :
    VideoStoreEntry :=
  let fullPath := joinPath dir fname
  let stats := env.stat fullPath
  { id := generateId fname (jsDirname fullPath)
    folder_name := jsBasename (jsDirname fullPath)
    full_path := fullPath
    file_name := fname
    file_size := stats.size
    creation_date := stats.ctime
    modified_date := stats.mtime
    duration := md.duration
    width := md.width
    height := md.height
    fps := md.fps
    codec := md.codec
    thumbnail_path := md.thumbnail_path
    indexed_at := env.nowSec
    blobUrl := none
    isPreloaded := false }

/-- The VideoIndexEntry built by the non-threaded `indexDirectory`
(part_003 lines 153-168): identical to `processFilesEntry` except that
the source writes the literal 0 into `file_size` (line 158) even though
the stat result is in scope. -/
def indexDirectoryEntry (env : CrawlEnv) (dir fname : String) (md : VideoMeta) :
    VideoStoreEntry :=
  let fullPath := joinPath dir fname
  let stats := env.stat fullPath
  { id := generateId fname (jsDirname fullPath)
    folder_name := jsBasename (jsDirname fullPath)
    full_path := fullPath
    file_name := fname
    file_size := 0
    creation_date := stats.ctime
    modified_date := stats.mtime
    duration := md.duration
    width := md.width
    height := md.height
    fps := md.fps
    codec := md.codec
    thumbnail_path := md.thumbnail_path
    indexed_at := env.nowSec
    blobUrl := none
    isPreloaded := false }

/-- The incremental skip test (part_003 lines 324-330): an existing
record for the file's full path whose `modified_date` equals the freshly
stat'd modification time. -/
def shouldSkip (env : CrawlEnv) (dir : String) (store : List VideoStoreEntry)
    (fname : String) : Bool :=
  match VideoStore.selectByPath store (joinPath dir fname) with
  | some e => (env.stat (joinPath dir fname)).mtime == e.modified_date
  | none => false

/-- The per-file loop of `processFilesInDirectory` (part_003 lines
317-375) over an initialized store, threading the table rows and the
`indexedCount` of upserts performed: non-video files are skipped, an
unmodified existing record skips extraction and upsert, a null extraction
writes nothing, and a successful extraction upserts the built entry. -/
def processFilesGo (env : CrawlEnv) (dir : String) :
    List String → List VideoStoreEntry → Nat → List VideoStoreEntry × Nat
  | [], store, cnt => (store, cnt)
  | fname :: rest, store, cnt =>
    if isVideoFile fname then
      if shouldSkip env dir store fname then processFilesGo env dir rest store cnt
      else
        match extractVideoMetadata env (joinPath dir fname) with
        | some md =>
            processFilesGo env dir rest
              (VideoStore.upsertRow store (processFilesEntry env dir fname md)) (cnt + 1)
        | none => processFilesGo env dir rest store cnt
    else processFilesGo env dir rest store cnt

/-- Models `VideoIndexer.processFilesInDirectory` (part_003 lines
307-379): the callers have initialized the store, so it acts on the table
rows, returning the updated rows and the number of records written. -/
def processFilesInDirectory (env : CrawlEnv) (dir : String)
    (files : List String) (store : List VideoStoreEntry) :
    List VideoStoreEntry × Nat :=
  processFilesGo env dir files store 0

/-- In-place update of one list position, modelling
`groups[threadIndex].push(item)`. -/
def listModify (f : α → α) : Nat → List α → List α
  | _, [] => []
  | 0, y :: ys => f y :: ys
  | n + 1, y :: ys => y :: listModify f n ys

/-- The `items.forEach((item, index) => groups[index % threadCount]
.push(item))` loop of `createThreadGroups` (part_003 lines 289-292),
with `i` the index of the next item. -/
def rrGo (threadCount : Nat) (gs : List (List α)) (i : Nat) :
    List α → List (List α)
  | [] => gs
  | x :: xs => rrGo threadCount (listModify (fun g => g ++ [x]) (i % threadCount) gs) (i + 1) xs

/-- Models `VideoIndexer.createThreadGroups` (part_003 lines 285-302):
`threadCount` empty groups, then round-robin assignment by index. -/
def createThreadGroups (items : List α) (threadCount : Nat) : List (List α) :=
  rrGo threadCount (List.replicate threadCount []) 0 items

end VideoIndexer

/-! ## Shared store lemmas -/

theorem filter_upsert_self (rows : List VideoStoreEntry) (v : VideoStoreEntry) :
    (VideoStore.upsertRow rows v).filter (fun e => e.full_path == v.full_path) = [v] := by
  unfold VideoStore.upsertRow
  rw [List.filter_append, List.filter_filter]
  have h1 : rows.filter (fun e => e.full_path == v.full_path && VideoStore.keepRow v e) = [] := by
    refine List.filter_eq_nil_iff.mpr ?_
    intro a _
    simp only [VideoStore.keepRow, Bool.and_eq_true, Bool.not_eq_true', beq_iff_eq,
      beq_eq_false_iff_ne, ne_eq, not_and]
    tauto
  rw [h1]
  simp

theorem selectByPath_upsert_self (rows : List VideoStoreEntry) (v : VideoStoreEntry) :
    VideoStore.selectByPath (VideoStore.upsertRow rows v) v.full_path = some v := by
  unfold VideoStore.selectByPath
  rw [filter_upsert_self]
  rfl

/-- C1: full_path is a unique key of the catalog store: upserting a record
for path P when a record for P exists replaces it rather than adding a
second one; after indexing P twice with different metadata,
getVideoByPath P returns exactly the most recently written record; and the
store never holds two records with the same full_path (the
pairwise-distinct-paths invariant is preserved by every upsert, and any
upsert leaves exactly one record at its own path). -/
theorem c1_full_path_unique_key
    (s : VideoStore.DbState) (v1 v2 v : VideoStoreEntry)
    (rows : List VideoStoreEntry) (P : String)
    (_h1 : v1.full_path = P) (h2 : v2.full_path = P) :
    VideoStore.getVideoByPath (VideoStore.addVideo (VideoStore.addVideo s v1) v2) false P
      = Except.ok (some v2)
    ∧ ((VideoStore.upsertRow rows v).filter (fun e => e.full_path == v.full_path)).length = 1
    ∧ (VideoStore.pathsUnique rows → VideoStore.pathsUnique (VideoStore.upsertRow rows v)) := by
  refine ⟨?_, ?_, ?_⟩
  · have hsome : ∃ l, VideoStore.addVideo s v1 = some l := by
      cases s with
      | none => exact ⟨VideoStore.upsertRow [] v1, rfl⟩
      | some rows0 => exact ⟨VideoStore.upsertRow rows0 v1, rfl⟩
    obtain ⟨l, hl⟩ := hsome
    rw [hl]
    have hl2 : VideoStore.addVideo (some l) v2 = some (VideoStore.upsertRow l v2) := rfl
    have hred : VideoStore.getVideoByPath (some (VideoStore.upsertRow l v2)) false P
        = Except.ok (VideoStore.selectByPath (VideoStore.upsertRow l v2) P) := by
      simp [VideoStore.getVideoByPath]
    rw [hl2, hred, ← h2, selectByPath_upsert_self]
  · rw [filter_upsert_self]
    rfl
  · intro hu
    unfold VideoStore.pathsUnique VideoStore.upsertRow
    refine List.pairwise_append.mpr ⟨?_, ?_, ?_⟩
    · exact List.Pairwise.sublist (List.filter_sublist rows) hu
    · exact List.pairwise_singleton _ _
    · intro a ha b hb
      have hk := (List.mem_filter.mp ha).2
      have hb1 : b = v := by simpa using hb
      subst hb1
      simp only [VideoStore.keepRow, Bool.and_eq_true, Bool.not_eq_true', beq_eq_false_iff_ne,
        ne_eq] at hk
      exact hk.2

/-- A sample record used by concrete witnesses. -/
def sampleEntry (i p : String) (md : Int) : VideoStoreEntry :=
  { id := i
    folder_name := "folder"
    full_path := p
    file_name := "file.mp4"
    file_size := 10
    creation_date := 1
    modified_date := md
    duration := none
    width := none
    height := none
    fps := none
    codec := none
    thumbnail_path := none
    indexed_at := 0
    blobUrl := none
    isPreloaded := false }

/-- Witness for C1 at a concrete store and pair of records. -/
theorem c1_full_path_unique_key_witness :
    (sampleEntry "x" "P" 1).full_path = "P" ∧ (sampleEntry "y" "P" 2).full_path = "P" ∧
    (VideoStore.getVideoByPath
        (VideoStore.addVideo (VideoStore.addVideo none (sampleEntry "x" "P" 1))
          (sampleEntry "y" "P" 2)) false "P"
        = Except.ok (some (sampleEntry "y" "P" 2))
      ∧ ((VideoStore.upsertRow [] (sampleEntry "z" "Q" 3)).filter
          (fun e => e.full_path == (sampleEntry "z" "Q" 3).full_path)).length = 1
      ∧ (VideoStore.pathsUnique [] →
          VideoStore.pathsUnique (VideoStore.upsertRow [] (sampleEntry "z" "Q" 3)))) :=
  ⟨rfl, rfl,
    c1_full_path_unique_key none (sampleEntry "x" "P" 1) (sampleEntry "y" "P" 2)
      (sampleEntry "z" "Q" 3) [] "P" rfl rfl⟩

/-- C10: getVideoByPath is the only store operation requiring prior
initialization: on an uninitialized store it throws "Database not
initialized", while addVideo, getVideo, getVideosSorted, searchVideos,
getFolders, clearVideos and both paginated queries first initialize the
store themselves (from the uninitialized state they run against the
freshly created empty table and leave the store initialized); once
initialized, getVideoByPath never raises, returning null both on a query
error and for an absent path. -/
theorem c10_getVideoByPath_only_init_required
    (qerr : Bool) (p i q sortBy folder : String) (rows : List VideoStoreEntry)
    (v : VideoStoreEntry) (page pageSize : Nat) :
    VideoStore.getVideoByPath none qerr p = Except.error "Database not initialized"
    ∧ (∃ r, VideoStore.getVideoByPath (some rows) qerr p = Except.ok r)
    ∧ VideoStore.getVideoByPath (some rows) true p = Except.ok none
    ∧ (VideoStore.selectByPath rows p = none →
        VideoStore.getVideoByPath (some rows) false p = Except.ok none)
    ∧ VideoStore.addVideo none v = some (VideoStore.upsertRow [] v)
    ∧ VideoStore.getVideo none i = (none, some [])
    ∧ VideoStore.getVideosSorted none sortBy = ([], some [])
    ∧ VideoStore.searchVideos none q = ([], some [])
    ∧ VideoStore.getFolders none = ([], some [])
    ∧ VideoStore.clearVideos none = some []
    ∧ VideoStore.getVideosPaginated none sortBy page pageSize
        = ({ videos := [], totalCount := 0, hasMore := false }, some [])
    ∧ VideoStore.getVideosByFolderPaginated none folder sortBy page pageSize
        = ({ videos := [], totalCount := 0, hasMore := false }, some []) := by
  refine ⟨rfl, ⟨_, rfl⟩, rfl, ?_, rfl, rfl, rfl, rfl, rfl, rfl, ?_, ?_⟩
  · intro h
    simp [VideoStore.getVideoByPath, h]
  · simp [VideoStore.getVideosPaginated, VideoStore.initDb, VideoStore.selectPage,
      VideoStore.selectSorted, VideoStore.sortByLe]
  · simp [VideoStore.getVideosByFolderPaginated, VideoStore.initDb, VideoStore.selectPage,
      VideoStore.selectSorted, VideoStore.sortByLe]

/-- Witness for C10 at a concrete path and empty table. -/
theorem c10_getVideoByPath_only_init_required_witness :
    VideoStore.getVideoByPath none false "P" = Except.error "Database not initialized"
    ∧ VideoStore.getVideoByPath (some []) false "P" = Except.ok none :=
  ⟨(c10_getVideoByPath_only_init_required false "P" "i" "q" "creation_date_asc" "f" []
      (sampleEntry "a" "b" 0) 1 20).1,
   (c10_getVideoByPath_only_init_required false "P" "i" "q" "creation_date_asc" "f" []
      (sampleEntry "a" "b" 0) 1 20).2.2.2.1 rfl⟩

/-! ## Sorting and pagination lemmas -/

theorem length_insertLe (le : α → α → Bool) (x : α) (l : List α) :
    (VideoStore.insertLe le x l).length = l.length + 1 := by
  induction l with
  | nil => rfl
  | cons y ys ih =>
    unfold VideoStore.insertLe
    cases hxy : le x y <;> simp [hxy, ih]

theorem length_sortByLe (le : α → α → Bool) (l : List α) :
    (VideoStore.sortByLe le l).length = l.length := by
  induction l with
  | nil => rfl
  | cons y ys ih =>
    unfold VideoStore.sortByLe
    rw [length_insertLe, ih]
    rfl

theorem perm_insertLe (le : α → α → Bool) (x : α) (l : List α) :
    (VideoStore.insertLe le x l).Perm (x :: l) := by
  induction l with
  | nil => exact List.Perm.refl _
  | cons y ys ih =>
    unfold VideoStore.insertLe
    cases hxy : le x y
    · simp only [Bool.false_eq_true, if_false]
      exact (List.Perm.cons y ih).trans (List.Perm.swap x y ys)
    · simp only [if_true]
      exact List.Perm.refl _

theorem perm_sortByLe (le : α → α → Bool) (l : List α) :
    (VideoStore.sortByLe le l).Perm l := by
  induction l with
  | nil => exact List.Perm.refl _
  | cons y ys ih =>
    unfold VideoStore.sortByLe
    exact (perm_insertLe le y (VideoStore.sortByLe le ys)).trans (List.Perm.cons y ih)

theorem flatten_take_drop_chunks (k : Nat) :
    ∀ (n : Nat) (l : List α), l.length ≤ n * k →
      ((List.range n).map (fun i => (l.drop (i * k)).take k)).flatten = l := by
  intro n
  induction n with
  | zero =>
    intro l h
    simp only [Nat.zero_mul, Nat.le_zero, List.length_eq_zero] at h
    simp [h]
  | succ n ih =>
    intro l h
    rw [List.range_succ_eq_map, List.map_cons, List.map_map]
    have hfun : ((fun i => (l.drop (i * k)).take k) ∘ Nat.succ)
        = fun i => (((l.drop k).drop (i * k)).take k) := by
      funext i
      simp only [Function.comp_apply, List.drop_drop]
      rw [Nat.succ_mul, Nat.add_comm]
    rw [hfun]
    have hsm : (n + 1) * k = n * k + k := Nat.succ_mul n k
    have hlen : (l.drop k).length ≤ n * k := by
      rw [List.length_drop]
      omega
    rw [List.flatten_cons, ih (l.drop k) hlen]
    simp [List.take_append_drop]

theorem selectPage_hasMore_iff (rows : List VideoStoreEntry) (sortBy : String)
    (page pageSize : Nat) (hp : 1 ≤ page) :
    ((VideoStore.selectPage rows sortBy page pageSize).hasMore = true
      ↔ page * pageSize < rows.length) := by
  have hS : (VideoStore.selectSorted rows sortBy).length = rows.length := by
    unfold VideoStore.selectSorted
    exact length_sortByLe _ _
  have hpk : (page - 1) * pageSize + pageSize = page * pageSize := by
    have h1 : page - 1 + 1 = page := Nat.succ_pred_eq_of_pos hp
    calc (page - 1) * pageSize + pageSize = (page - 1 + 1) * pageSize := by
          rw [Nat.succ_mul]
      _ = page * pageSize := by rw [h1]
  unfold VideoStore.selectPage
  simp only [List.length_take, List.length_drop, decide_eq_true_eq, hS]
  omega

theorem selectPage_videos_ne_nil (rows : List VideoStoreEntry) (sortBy : String)
    (page pageSize : Nat) :
    ((VideoStore.selectPage rows sortBy page pageSize).videos ≠ []
      ↔ 0 < pageSize ∧ (page - 1) * pageSize < rows.length) := by
  have hS : (VideoStore.selectSorted rows sortBy).length = rows.length := by
    unfold VideoStore.selectSorted
    exact length_sortByLe _ _
  rw [← List.length_pos]
  unfold VideoStore.selectPage
  simp only [List.length_take, List.length_drop, hS]
  omega

/-- C4: for every sort key and every positive page size, concatenating the
pages of the paginated listing for pages 1, 2, ... reproduces the full
sorted listing (which is a permutation of the stored records, so each
record appears exactly once); page p reads the sorted records at offset
(p-1)*pageSize; the returned hasMore flag equals
offset + returnedCount < totalCount; and hasMore is true exactly when
some strictly later page is non-empty. -/
theorem c4_pagination_invariant (rows : List VideoStoreEntry) (sortBy : String)
    (page pageSize : Nat) (hk : 0 < pageSize) (hp : 1 ≤ page) :
    (∀ n, rows.length ≤ n * pageSize →
      ((List.range n).map
          (fun i => ((VideoStore.getVideosPaginated (some rows) sortBy (i + 1) pageSize).1).videos)).flatten
        = (VideoStore.getVideosSorted (some rows) sortBy).1)
    ∧ ((VideoStore.getVideosSorted (some rows) sortBy).1).Perm rows
    ∧ ((VideoStore.getVideosPaginated (some rows) sortBy page pageSize).1).videos
        = (((VideoStore.getVideosSorted (some rows) sortBy).1).drop ((page - 1) * pageSize)).take pageSize
    ∧ ((VideoStore.getVideosPaginated (some rows) sortBy page pageSize).1).hasMore
        = decide ((page - 1) * pageSize
            + ((VideoStore.getVideosPaginated (some rows) sortBy page pageSize).1).videos.length
            < ((VideoStore.getVideosPaginated (some rows) sortBy page pageSize).1).totalCount)
    ∧ (((VideoStore.getVideosPaginated (some rows) sortBy page pageSize).1).hasMore = true
        ↔ ∃ q2, page < q2
            ∧ ((VideoStore.getVideosPaginated (some rows) sortBy q2 pageSize).1).videos ≠ []) := by
  have hS : (VideoStore.selectSorted rows sortBy).length = rows.length := by
    unfold VideoStore.selectSorted
    exact length_sortByLe _ _
  refine ⟨?_, ?_, rfl, rfl, ?_⟩
  · intro n hn
    show ((List.range n).map
        (fun i => ((VideoStore.selectSorted rows sortBy).drop (i * pageSize)).take pageSize)).flatten
      = VideoStore.selectSorted rows sortBy
    exact flatten_take_drop_chunks pageSize n _ (by rw [hS]; exact hn)
  · exact perm_sortByLe _ rows
  · show ((VideoStore.selectPage rows sortBy page pageSize).hasMore = true
      ↔ ∃ q2, page < q2 ∧ (VideoStore.selectPage rows sortBy q2 pageSize).videos ≠ [])
    rw [selectPage_hasMore_iff rows sortBy page pageSize hp]
    constructor
    · intro h
      refine ⟨page + 1, Nat.lt_succ_self page, ?_⟩
      rw [selectPage_videos_ne_nil]
      exact ⟨hk, by simpa using h⟩
    · rintro ⟨q2, hq2, hne⟩
      rw [selectPage_videos_ne_nil] at hne
      have hmul : page * pageSize ≤ (q2 - 1) * pageSize :=
        Nat.mul_le_mul_right _ (by omega)
      omega

/-- A record with a given numeric key, for the C4 witness store. -/
def pageEntry (n : Nat) : VideoStoreEntry :=
  { id := toString n
    folder_name := "folder"
    full_path := toString n
    file_name := toString n
    file_size := 10
    creation_date := (n : Int)
    modified_date := 0
    duration := none
    width := none
    height := none
    fps := none
    codec := none
    thumbnail_path := none
    indexed_at := 0
    blobUrl := none
    isPreloaded := false }

/-- A concrete store of 45 records for the C4 scenario. -/
def rows45 : List VideoStoreEntry := (List.range 45).map pageEntry

/-- Witness for C4: the 45-record scenario with pageSize 20 — page 1
returns 20 records with hasMore true, page 3 returns 5 with hasMore
false — together with the hasMore characterization instantiated there. -/
theorem c4_pagination_invariant_witness :
    (((VideoStore.getVideosPaginated (some rows45) "creation_date_asc" 1 20).1).hasMore = true
      ↔ ∃ q2, 1 < q2
          ∧ ((VideoStore.getVideosPaginated (some rows45) "creation_date_asc" q2 20).1).videos ≠ [])
    ∧ ((VideoStore.getVideosPaginated (some rows45) "creation_date_asc" 1 20).1).videos.length = 20
    ∧ ((VideoStore.getVideosPaginated (some rows45) "creation_date_asc" 1 20).1).hasMore = true
    ∧ ((VideoStore.getVideosPaginated (some rows45) "creation_date_asc" 3 20).1).videos.length = 5
    ∧ ((VideoStore.getVideosPaginated (some rows45) "creation_date_asc" 3 20).1).hasMore = false :=
  ⟨(c4_pagination_invariant rows45 "creation_date_asc" 1 20 (by decide) (by decide)).2.2.2.2,
   by decide, by decide, by decide, by decide⟩

/-! ## Round-robin distribution lemmas -/

theorem listModify_length (f : α → α) :
    ∀ (n : Nat) (l : List α), (VideoIndexer.listModify f n l).length = l.length := by
  intro n
  induction n with
  | zero => intro l; cases l <;> rfl
  | succ m ih =>
    intro l
    cases l with
    | nil => rfl
    | cons y ys =>
      show (y :: VideoIndexer.listModify f m ys).length = (y :: ys).length
      simp [ih ys]

theorem listModify_getD_eq (f : α → α) :
    ∀ (n : Nat) (l : List α) (d : α), n < l.length →
      (VideoIndexer.listModify f n l).getD n d = f (l.getD n d) := by
  intro n
  induction n with
  | zero =>
    intro l d h
    cases l with
    | nil => simp at h
    | cons y ys => rfl
  | succ m ih =>
    intro l d h
    cases l with
    | nil => simp at h
    | cons y ys =>
      show (VideoIndexer.listModify f (m + 1) (y :: ys)).getD (m + 1) d = _
      have : VideoIndexer.listModify f (m + 1) (y :: ys)
          = y :: VideoIndexer.listModify f m ys := rfl
      rw [this, List.getD_cons_succ, List.getD_cons_succ]
      exact ih ys d (by simpa using h)

theorem listModify_getD_ne (f : α → α) :
    ∀ (n j : Nat) (l : List α) (d : α), n ≠ j →
      (VideoIndexer.listModify f n l).getD j d = l.getD j d := by
  intro n
  induction n with
  | zero =>
    intro j l d h
    cases l with
    | nil => rfl
    | cons y ys =>
      cases j with
      | zero => exact absurd rfl h
      | succ m => rfl
  | succ m ih =>
    intro j l d h
    cases l with
    | nil => rfl
    | cons y ys =>
      cases j with
      | zero => rfl
      | succ j2 =>
        have : VideoIndexer.listModify f (m + 1) (y :: ys)
            = y :: VideoIndexer.listModify f m ys := rfl
        rw [this, List.getD_cons_succ, List.getD_cons_succ]
        exact ih j2 ys d (by omega)

theorem rrGo_length (L : Nat) :
    ∀ (items : List α) (gs : List (List α)) (i : Nat),
      (VideoIndexer.rrGo L gs i items).length = gs.length := by
  intro items
  induction items with
  | nil => intro gs i; rfl
  | cons x xs ih =>
    intro gs i
    show (VideoIndexer.rrGo L (VideoIndexer.listModify (fun g => g ++ [x]) (i % L) gs)
        (i + 1) xs).length = gs.length
    rw [ih _ (i + 1), listModify_length]

theorem rrGo_getD (L : Nat) (hL : 0 < L) :
    ∀ (items : List α) (gs : List (List α)) (i : Nat), gs.length = L →
      ∀ j, (VideoIndexer.rrGo L gs i items).getD j []
        = gs.getD j [] ++ ((List.enumFrom i items).filter (fun p => p.1 % L == j)).map Prod.snd := by
  intro items
  induction items with
  | nil =>
    intro gs i hgs j
    simp [VideoIndexer.rrGo]
  | cons x xs ih =>
    intro gs i hgs j
    have hgs2 : (VideoIndexer.listModify (fun g => g ++ [x]) (i % L) gs).length = L := by
      rw [listModify_length]; exact hgs
    show (VideoIndexer.rrGo L (VideoIndexer.listModify (fun g => g ++ [x]) (i % L) gs)
        (i + 1) xs).getD j [] = _
    rw [ih _ (i + 1) hgs2 j, List.enumFrom_cons, List.filter_cons]
    by_cases hij : i % L = j
    · subst hij
      have hb : ((i, x).1 % L == i % L) = true := by simp
      rw [if_pos hb, List.map_cons,
        listModify_getD_eq (fun g => g ++ [x]) (i % L) gs [] (by rw [hgs]; exact Nat.mod_lt _ hL)]
      simp [List.append_assoc]
    · have hb : ((i, x).1 % L == j) = false := by simp [hij]
      simp only [hb, Bool.false_eq_true, if_false]
      rw [listModify_getD_ne (fun g => g ++ [x]) (i % L) j gs [] hij]

theorem getD_replicate_empty :
    ∀ (L j : Nat), (List.replicate L ([] : List α)).getD j [] = [] := by
  intro L
  induction L with
  | zero => intro j; rfl
  | succ m ih =>
    intro j
    cases j with
    | zero => rfl
    | succ j2 =>
      show (List.replicate m ([] : List α)).getD j2 [] = []
      exact ih j2

theorem createThreadGroups_getD (items : List α) (L : Nat) (hL : 0 < L) (j : Nat) :
    (VideoIndexer.createThreadGroups items L).getD j []
      = (items.enum.filter (fun p => p.1 % L == j)).map Prod.snd := by
  unfold VideoIndexer.createThreadGroups
  rw [rrGo_getD L hL items _ 0 (by simp) j, getD_replicate_empty, List.nil_append,
    List.enum_eq_enumFrom]

theorem succ_div_mod_of_mod_succ_eq (N L : Nat) (hL : 0 < L) (h : N % L + 1 = L) :
    (N + 1) / L = N / L + 1 ∧ (N + 1) % L = 0 := by
  have hdm := Nat.div_add_mod N L
  have hmul : L * (N / L + 1) = L * (N / L) + L := Nat.mul_succ L (N / L)
  have h1 : N + 1 = L * (N / L + 1) := by omega
  constructor
  · rw [h1, Nat.mul_div_cancel_left _ hL]
  · rw [h1, Nat.mul_mod_right]

theorem succ_div_mod_of_mod_succ_lt (N L : Nat) (hL : 0 < L) (h : N % L + 1 < L) :
    (N + 1) / L = N / L ∧ (N + 1) % L = N % L + 1 := by
  have hdm := Nat.div_add_mod N L
  have h1 : N + 1 = L * (N / L) + (N % L + 1) := by omega
  constructor
  · rw [h1, Nat.mul_add_div hL, Nat.div_eq_of_lt h, Nat.add_zero]
  · rw [h1, Nat.mul_add_mod, Nat.mod_eq_of_lt h]

theorem countP_range_mod (L j : Nat) (hL : 0 < L) (hj : j < L) :
    ∀ N, (List.range N).countP (fun i => i % L == j)
      = N / L + if j < N % L then 1 else 0 := by
  intro N
  induction N with
  | zero => simp
  | succ N ih =>
    rw [List.range_succ, List.countP_append, ih]
    have hsingle : List.countP (fun i => i % L == j) [N] = if N % L = j then 1 else 0 := by
      rw [List.countP_cons, List.countP_nil]
      by_cases h : N % L = j <;> simp [h]
    rw [hsingle]
    have hmod : N % L < L := Nat.mod_lt _ hL
    by_cases hcase : N % L + 1 = L
    · obtain ⟨hd, hm⟩ := succ_div_mod_of_mod_succ_eq N L hL hcase
      rw [hd, hm]
      split_ifs <;> omega
    · obtain ⟨hd, hm⟩ := succ_div_mod_of_mod_succ_lt N L hL (by omega)
      rw [hd, hm]
      split_ifs <;> omega

theorem ceil_div_eq (N L : Nat) (hL : 0 < L) :
    (N + L - 1) / L = N / L + if N % L = 0 then 0 else 1 := by
  have hdm := Nat.div_add_mod N L
  have hmod : N % L < L := Nat.mod_lt _ hL
  by_cases hr : N % L = 0
  · rw [if_pos hr, Nat.add_zero]
    have h1 : N + L - 1 = L * (N / L) + (L - 1) := by omega
    rw [h1, Nat.mul_add_div hL, Nat.div_eq_of_lt (show L - 1 < L by omega), Nat.add_zero]
  · rw [if_neg hr]
    have hmul : L * (N / L + 1) = L * (N / L) + L := Nat.mul_succ L (N / L)
    have h1 : N + L - 1 = L * (N / L + 1) + (N % L - 1) := by omega
    rw [h1, Nat.mul_add_div hL, Nat.div_eq_of_lt (show N % L - 1 < L by omega),
      Nat.add_zero]

theorem flatten_listModify_perm (x : α) :
    ∀ (gs : List (List α)) (n : Nat), n < gs.length →
      ((VideoIndexer.listModify (fun g => g ++ [x]) n gs).flatten).Perm
        (gs.flatten ++ [x]) := by
  intro gs
  induction gs with
  | nil => intro n h; simp at h
  | cons g gsTail ih =>
    intro n h
    cases n with
    | zero =>
      show ((g ++ [x]) :: gsTail).flatten.Perm ((g :: gsTail).flatten ++ [x])
      rw [List.flatten_cons, List.flatten_cons, List.append_assoc, List.append_assoc]
      exact List.Perm.append_left g List.perm_append_comm
    | succ m =>
      show (g :: VideoIndexer.listModify (fun g2 => g2 ++ [x]) m gsTail).flatten.Perm
        ((g :: gsTail).flatten ++ [x])
      rw [List.flatten_cons, List.flatten_cons, List.append_assoc]
      exact List.Perm.append_left g (ih m (by simpa using h))

theorem rrGo_flatten_perm (L : Nat) (hL : 0 < L) :
    ∀ (items : List α) (gs : List (List α)) (i : Nat), gs.length = L →
      ((VideoIndexer.rrGo L gs i items).flatten).Perm (gs.flatten ++ items) := by
  intro items
  induction items with
  | nil => intro gs i h; simp [VideoIndexer.rrGo]
  | cons x xs ih =>
    intro gs i h
    have h2 : (VideoIndexer.listModify (fun g => g ++ [x]) (i % L) gs).length = L := by
      rw [listModify_length]; exact h
    have hstep : VideoIndexer.rrGo L gs i (x :: xs)
        = VideoIndexer.rrGo L (VideoIndexer.listModify (fun g => g ++ [x]) (i % L) gs)
            (i + 1) xs := rfl
    rw [hstep]
    refine (ih _ (i + 1) h2).trans ?_
    have h3 := flatten_listModify_perm x gs (i % L) (by rw [h]; exact Nat.mod_lt _ hL)
    refine (List.Perm.append_right xs h3).trans ?_
    rw [List.append_assoc, List.singleton_append]

theorem flatten_replicate_empty :
    ∀ (L : Nat), (List.replicate L ([] : List α)).flatten = [] := by
  intro L
  induction L with
  | zero => rfl
  | succ m ih => simp [ih]

/-- C5: the work distributor assigns subdirectory i to lane i mod L,
preserving discovery order within each lane; there are exactly L lanes,
every lane receives either floor(N/L) or ceil(N/L) subdirectories, and the
lanes together contain the input items exactly once (their concatenation
is a permutation of the input). -/
theorem c5_round_robin_distribution (items : List α) (L : Nat) (hL : 0 < L) :
    (VideoIndexer.createThreadGroups items L).length = L
    ∧ (∀ j, (VideoIndexer.createThreadGroups items L).getD j []
        = (items.enum.filter (fun p => p.1 % L == j)).map Prod.snd)
    ∧ (∀ j, j < L →
        ((VideoIndexer.createThreadGroups items L).getD j []).length = items.length / L
        ∨ ((VideoIndexer.createThreadGroups items L).getD j []).length
            = (items.length + L - 1) / L)
    ∧ ((VideoIndexer.createThreadGroups items L).flatten).Perm items := by
  refine ⟨?_, fun j => createThreadGroups_getD items L hL j, ?_, ?_⟩
  · unfold VideoIndexer.createThreadGroups
    rw [rrGo_length]
    simp
  · intro j hj
    rw [createThreadGroups_getD items L hL j]
    have hlen : ((items.enum.filter (fun p => p.1 % L == j)).map Prod.snd).length
        = (List.range items.length).countP (fun i => i % L == j) := by
      rw [List.length_map, ← List.countP_eq_length_filter]
      have hfst : List.countP (fun i => i % L == j) (items.enum.map Prod.fst)
          = List.countP (fun p => p.1 % L == j) items.enum := by
        rw [List.countP_map]
        rfl
      rw [← hfst, List.enum_eq_enumFrom, List.enumFrom_map_fst, ← List.range_eq_range']
    rw [hlen, countP_range_mod L j hL hj items.length, ceil_div_eq items.length L hL]
    by_cases hr : items.length % L = 0
    · left
      simp [hr]
    · by_cases hj2 : j < items.length % L
      · right
        rw [if_pos hj2, if_neg hr]
      · left
        rw [if_neg hj2, Nat.add_zero]
  · unfold VideoIndexer.createThreadGroups
    refine (rrGo_flatten_perm L hL items _ 0 (by simp)).trans ?_
    rw [flatten_replicate_empty, List.nil_append]

/-- Witness for C5: five subdirectories over two lanes — lane 0 receives
the items at indices 0, 2, 4 and lane 1 those at indices 1, 3. -/
theorem c5_round_robin_distribution_witness :
    VideoIndexer.createThreadGroups ([10, 11, 12, 13, 14] : List Nat) 2 = [[10, 12, 14], [11, 13]]
    ∧ (VideoIndexer.createThreadGroups ([10, 11, 12, 13, 14] : List Nat) 2).length = 2
    ∧ ((VideoIndexer.createThreadGroups ([10, 11, 12, 13, 14] : List Nat) 2).flatten).Perm
        [10, 11, 12, 13, 14] :=
  ⟨by decide,
   (c5_round_robin_distribution ([10, 11, 12, 13, 14] : List Nat) 2 (by decide)).1,
   (c5_round_robin_distribution ([10, 11, 12, 13, 14] : List Nat) 2 (by decide)).2.2.2⟩

/-- C3: metadata extraction is total and absorbs its failures: the
extractor returns the null result whenever the probing tool is
unavailable (its availability check rejects or exits non-zero), the
per-file probe rejects or exits non-zero, its output is malformed, or no
stream with codec_type "video" exists; and when extraction is null for a
file, the per-file crawl loop writes nothing to the store for that file
and continues unchanged with the remaining files. -/
theorem c3_extraction_failure_absorbed (env : CrawlEnv) (p dir fname : String)
    (rest : List String) (store : List VideoStoreEntry) (cnt : Nat) :
    (env.versionCode = none → VideoIndexer.extractVideoMetadata env p = none)
    ∧ (∀ c, env.versionCode = some c → c ≠ 0 →
        VideoIndexer.extractVideoMetadata env p = none)
    ∧ (env.versionCode = some 0 → env.probe p = none →
        VideoIndexer.extractVideoMetadata env p = none)
    ∧ (∀ c d, env.versionCode = some 0 → env.probe p = some (c, d) → c ≠ 0 →
        VideoIndexer.extractVideoMetadata env p = none)
    ∧ (env.versionCode = some 0 → env.probe p = some (0, none) →
        VideoIndexer.extractVideoMetadata env p = none)
    ∧ (∀ data, env.versionCode = some 0 → env.probe p = some (0, some data) →
        VideoIndexer.findVideoStream data = none →
        VideoIndexer.extractVideoMetadata env p = none)
    ∧ (VideoIndexer.extractVideoMetadata env (VideoIndexer.joinPath dir fname) = none →
        VideoIndexer.processFilesGo env dir (fname :: rest) store cnt
          = VideoIndexer.processFilesGo env dir rest store cnt) := by
  refine ⟨?_, ?_, ?_, ?_, ?_, ?_, ?_⟩
  · intro hv
    simp [VideoIndexer.extractVideoMetadata, VideoIndexer.extractBody, hv]
  · intro c hv hc
    simp [VideoIndexer.extractVideoMetadata, VideoIndexer.extractBody, hv, hc]
  · intro hv hp
    simp [VideoIndexer.extractVideoMetadata, VideoIndexer.extractBody, hv, hp]
  · intro c d hv hp hc
    simp [VideoIndexer.extractVideoMetadata, VideoIndexer.extractBody, hv, hp, hc]
  · intro hv hp
    simp [VideoIndexer.extractVideoMetadata, VideoIndexer.extractBody, hv, hp]
  · intro data hv hp hs
    simp [VideoIndexer.extractVideoMetadata, VideoIndexer.extractBody, hv, hp, hs]
  · intro hx
    simp only [VideoIndexer.processFilesGo]
    rw [hx]
    by_cases hv : VideoIndexer.isVideoFile fname
    · rw [if_pos hv]
      by_cases hs : VideoIndexer.shouldSkip env dir store fname
      · rw [if_pos hs]
      · rw [if_neg hs]
    · rw [if_neg hv]

/-- An environment in which the probing tool itself is unreachable. -/
def envNoProbe : CrawlEnv :=
  { versionCode := none
    probe := fun _ => none
    thumbnail := fun _ => none
    stat := fun _ => { mtime := 0, ctime := 0, size := 0 }
    parseFloatNum := fun _ => none
    parseNum := fun _ => none
    nowSec := 0 }

/-- Witness for C3: with the probing tool unreachable, extraction of a
concrete file is null and the crawl loop passes over the file without
writing. -/
theorem c3_extraction_failure_absorbed_witness :
    VideoIndexer.extractVideoMetadata envNoProbe "d/f.mp4" = none
    ∧ VideoIndexer.processFilesGo envNoProbe "d" ["f.mp4"] [] 0
        = VideoIndexer.processFilesGo envNoProbe "d" [] [] 0 :=
  ⟨(c3_extraction_failure_absorbed envNoProbe "d/f.mp4" "d" "f.mp4" [] [] 0).1 rfl,
   (c3_extraction_failure_absorbed envNoProbe "d/f.mp4" "d" "f.mp4" [] [] 0).2.2.2.2.2.2
     ((c3_extraction_failure_absorbed envNoProbe (VideoIndexer.joinPath "d" "f.mp4")
        "d" "f.mp4" [] [] 0).1 rfl)⟩

/-! ## Storage analyzer: cache and per-file size -/

/-- StorageStats (part_003 lines 6-13). -/
structure StorageStats where
  totalFiles : Nat
  totalSize : Int
  videoFiles : Nat
  videoSize : Int
  lastUpdated : Int
  directoryPath : String
deriving DecidableEq

/-- The external world of `getCachedStorageStats` (part_003 lines
792-821): whether the cache file exists, the parsed directory-keyed map
(none models a read or JSON.parse failure, absorbed by the catch), and
`Date.now()` in milliseconds. -/
structure CacheEnv where
  cacheExists : Bool
  cacheContent : Option (List (String × StorageStats))
  nowMs : Int

/-- The JS object lookup `cachedStats[directoryPath]` over the parsed
cache document. -/
def lookupCache : List (String × StorageStats) → String → Option StorageStats
  | [], _ => none
  | (k, v) :: rest, d => if k == d then some v else lookupCache rest d

namespace VideoIndexer

/-- Models `VideoIndexer.getCachedStorageStats` (part_003 lines 792-821):
missing cache file, unreadable/malformed content, or a missing entry give
null; a found entry is returned only while
`Date.now() - lastUpdated < 24 * 60 * 60 * 1000`, otherwise null forces
recomputation. -/
def getCachedStorageStats (env : CacheEnv) (dir : String) : Option StorageStats :=
  if env.cacheExists then
    match env.cacheContent with
    | none => none
    | some m =>
      match lookupCache m dir with
      | none => none
      | some stats =>
        if env.nowMs - stats.lastUpdated < 24 * 60 * 60 * 1000 then some stats
        else none
  else none

end VideoIndexer

/-- The completed per-file ffprobe size invocation of `getFileSize`
(part_003 lines 728-743): the exit code, and the JSON.parse outcome of
stdout where the outer none models a parse exception and the inner
Option is `parseInt(data.format?.size)` with none modelling NaN
(missing or unparseable size field). -/
structure SizeCmdResult where
  code : Int
  parsed : Option (Option Int)
deriving DecidableEq

/-- The external world of `getFileSize`: the size probe (outer none
models a rejected execution) and `readFile(...).length` (none models a
read failure). -/
structure SizeEnv where
  sizeCmd : String → Option SizeCmdResult
  readFileLen : String → Option Int

namespace VideoIndexer

/-- Models `VideoIndexer.getFileSize` (part_003 lines 725-756): the
`readFile` byte-length fallback lives in the catch block, so it runs only
when the probe invocation or the JSON.parse of its output throws; a probe
that completes with non-zero exit, or with no positive parsed size,
reaches the final `return 0` without attempting the fallback. -/
def getFileSize (env : SizeEnv) (filePath : String) : Int :=
  match env.sizeCmd filePath with
  | none =>
    match env.readFileLen filePath with
    | some len => len
    | none => 0
  | some r =>
    if r.code == 0 then
      match r.parsed with
      | none =>
        match env.readFileLen filePath with
        | some len => len
        | none => 0
      | some sz =>
        match sz with
        | some n => if 0 < n then n else 0
        | none => 0
    else 0

end VideoIndexer

/-- C8: a cached StorageStats entry is served only while strictly younger
than 24 hours: a found entry with age < 24h is returned, an entry aged
24h or more is treated as absent (null, forcing recomputation), and a
missing or malformed/unreadable cache file is likewise treated as
absent. -/
theorem c8_cache_freshness_window (env : CacheEnv) (dir : String)
    (m : List (String × StorageStats)) (stats : StorageStats) :
    (env.cacheExists = true → env.cacheContent = some m →
      lookupCache m dir = some stats →
      env.nowMs - stats.lastUpdated < 24 * 60 * 60 * 1000 →
      VideoIndexer.getCachedStorageStats env dir = some stats)
    ∧ (env.cacheExists = true → env.cacheContent = some m →
      lookupCache m dir = some stats →
      24 * 60 * 60 * 1000 ≤ env.nowMs - stats.lastUpdated →
      VideoIndexer.getCachedStorageStats env dir = none)
    ∧ (env.cacheContent = none →
      VideoIndexer.getCachedStorageStats env dir = none)
    ∧ (env.cacheExists = false →
      VideoIndexer.getCachedStorageStats env dir = none) := by
  refine ⟨?_, ?_, ?_, ?_⟩
  · intro he hc hl hfresh
    simp only [VideoIndexer.getCachedStorageStats, he, if_true, hc, hl]
    rw [if_pos hfresh]
  · intro he hc hl hstale
    simp only [VideoIndexer.getCachedStorageStats, he, if_true, hc, hl]
    rw [if_neg (Int.not_lt.mpr hstale)]
  · intro hc
    by_cases he : env.cacheExists <;>
      simp [VideoIndexer.getCachedStorageStats, he, hc]
  · intro he
    simp [VideoIndexer.getCachedStorageStats, he]

/-- A cached StorageStats entry written 25 hours before lookup. -/
def statsD : StorageStats :=
  { totalFiles := 3
    totalSize := 300
    videoFiles := 1
    videoSize := 100
    lastUpdated := 0
    directoryPath := "D" }

/-- A cache environment holding only the 25-hour-old entry for "D". -/
def envCache25h : CacheEnv :=
  { cacheExists := true
    cacheContent := some [("D", statsD)]
    nowMs := 25 * 60 * 60 * 1000 }

/-- Witness for C8: the 25-hour-old cached entry for directory D is
treated as absent. -/
theorem c8_cache_freshness_window_witness :
    VideoIndexer.getCachedStorageStats envCache25h "D" = none
    ∧ envCache25h.nowMs - statsD.lastUpdated = 90000000 :=
  ⟨(c8_cache_freshness_window envCache25h "D" [("D", statsD)] statsD).2.1
      rfl rfl rfl (by decide),
   by decide⟩

/-- C9 (amended): the Storage Analyzer's per-file size lookup tries the
probe-reported container size first; the byte-length fallback is
attempted only when the probe invocation or the parsing of its output
throws; a probe that completes with non-zero exit, or with no positive
parsed size, contributes zero directly without attempting the fallback;
when both the throwing probe and the byte read fail the file contributes
zero; and the lookup is total, so no failure aborts the analysis. -/
theorem c9_size_lookup_fallback (env : SizeEnv) (p : String) :
    (env.sizeCmd p = none →
      VideoIndexer.getFileSize env p = (env.readFileLen p).getD 0)
    ∧ (∀ r, env.sizeCmd p = some r → r.code = 0 → r.parsed = none →
      VideoIndexer.getFileSize env p = (env.readFileLen p).getD 0)
    ∧ (∀ r n, env.sizeCmd p = some r → r.code = 0 → r.parsed = some (some n) →
      0 < n → VideoIndexer.getFileSize env p = n)
    ∧ (∀ r, env.sizeCmd p = some r → r.code ≠ 0 →
      VideoIndexer.getFileSize env p = 0)
    ∧ (∀ r n, env.sizeCmd p = some r → r.code = 0 → r.parsed = some (some n) →
      n ≤ 0 → VideoIndexer.getFileSize env p = 0)
    ∧ (∀ r, env.sizeCmd p = some r → r.code = 0 → r.parsed = some none →
      VideoIndexer.getFileSize env p = 0) := by
  refine ⟨?_, ?_, ?_, ?_, ?_, ?_⟩
  · intro hc
    cases hr : env.readFileLen p <;>
      simp [VideoIndexer.getFileSize, hc, hr]
  · intro r hc hcode hp
    cases hr : env.readFileLen p <;>
      simp [VideoIndexer.getFileSize, hc, hcode, hp, hr]
  · intro r n hc hcode hp hn
    simp [VideoIndexer.getFileSize, hc, hcode, hp, hn]
  · intro r hc hcode
    simp [VideoIndexer.getFileSize, hc, hcode]
  · intro r n hc hcode hp hn
    simp [VideoIndexer.getFileSize, hc, hcode, hp, Int.not_lt.mpr hn]
  · intro r hc hcode hp
    simp [VideoIndexer.getFileSize, hc, hcode, hp]

/-- A size environment whose probe completes with non-zero exit while the
byte read would have succeeded with 500. -/
def envSizeNonzeroExit : SizeEnv :=
  { sizeCmd := fun _ => some { code := 1, parsed := some (some 999) }
    readFileLen := fun _ => some 500 }

/-- Counterexample for C9 as stated: the probe exits non-zero (so no
positive probe size is obtained) and the file's byte length is readable
as 500, yet the lookup returns 0 — it never attempts the byte-length
fallback, contradicting "whenever that does not yield a positive size
... falls back to reading the file's actual byte length" and "only when
both fail does the file contribute zero". -/
theorem c9_size_lookup_fallback_counterexample :
    VideoIndexer.getFileSize envSizeNonzeroExit "f" = 0
    ∧ envSizeNonzeroExit.readFileLen "f" = some 500
    ∧ VideoIndexer.getFileSize envSizeNonzeroExit "f" ≠ 500 :=
  ⟨rfl, rfl, by decide⟩

/-- A size environment whose probe invocation throws and whose byte read
returns 7. -/
def envSizeThrow : SizeEnv :=
  { sizeCmd := fun _ => none
    readFileLen := fun _ => some 7 }

/-- Witness for the amended C9: when the probe invocation throws, the
lookup falls back to the file's byte length. -/
theorem c9_size_lookup_fallback_witness :
    VideoIndexer.getFileSize envSizeThrow "g" = (envSizeThrow.readFileLen "g").getD 0
    ∧ (envSizeThrow.readFileLen "g").getD 0 = 7 :=
  ⟨(c9_size_lookup_fallback envSizeThrow "g").1 rfl, rfl⟩

/-- A crawl environment whose filesystem stat reports 1234 bytes. -/
def envSized : CrawlEnv :=
  { versionCode := some 0
    probe := fun _ => none
    thumbnail := fun _ => none
    stat := fun _ => { mtime := 100, ctime := 90, size := 1234 }
    parseFloatNum := fun _ => none
    parseNum := fun _ => none
    nowSec := 500 }

/-- An extraction result used to build concrete records. -/
def mdSample : VideoMeta :=
  { duration := none
    width := none
    height := none
    fps := none
    codec := none
    thumbnail_path := none }

/-- C6 (code bug): the non-threaded indexDirectory does not have per-file
semantics identical to the threaded crawl: for a file whose stat reports
1234 bytes, the threaded variant's record carries file_size 1234 while
indexDirectory writes the literal 0 (part_003 line 158), so the two
records differ; they agree on every other field. -/
theorem c6_file_size_divergence :
    (VideoIndexer.processFilesEntry envSized "d" "a.mp4" mdSample).file_size = 1234
    ∧ (VideoIndexer.indexDirectoryEntry envSized "d" "a.mp4" mdSample).file_size = 0
    ∧ VideoIndexer.indexDirectoryEntry envSized "d" "a.mp4" mdSample
        ≠ VideoIndexer.processFilesEntry envSized "d" "a.mp4" mdSample
    ∧ { VideoIndexer.indexDirectoryEntry envSized "d" "a.mp4" mdSample with
          file_size := 1234 }
        = VideoIndexer.processFilesEntry envSized "d" "a.mp4" mdSample :=
  ⟨rfl, rfl, by decide, rfl⟩

/-- C7 (code bug): the record identifier is not the sanitized
"parentFolderName_fileName": the source interpolates the basename call
without awaiting it, so the pending Promise stringifies as
"[object Promise]" and every identifier starts with its sanitization
"_object_Promise_" regardless of the folder; for file "clip.mp4" in
folder "/videos/Fortnite" the code produces "_object_Promise__clip_mp4"
where the specification prescribes "Fortnite_clip_mp4". -/
theorem c7_generateId_promise_bug :
    VideoIndexer.generateId "clip.mp4" "/videos/Fortnite" = "_object_Promise__clip_mp4"
    ∧ VideoIndexer.generateIdSpec "clip.mp4" "/videos/Fortnite" = "Fortnite_clip_mp4"
    ∧ VideoIndexer.generateId "clip.mp4" "/videos/Fortnite"
        ≠ VideoIndexer.generateIdSpec "clip.mp4" "/videos/Fortnite"
    ∧ (∀ folderA folderB : String,
        VideoIndexer.generateId "clip.mp4" folderA
          = VideoIndexer.generateId "clip.mp4" folderB) :=
  ⟨by decide, by decide, by decide, fun _ _ => rfl⟩

/-! ## Crawl idempotence lemmas -/

/-- The identifier the crawl writes for a file of a directory. -/
def VideoIndexer.fileId (dir fname : String) : String :=
  VideoIndexer.generateId fname (VideoIndexer.jsDirname (VideoIndexer.joinPath dir fname))

/-- A file needs no write on a re-crawl: it is not a video file, or the
store holds a record at its path whose modified_date equals the stat'd
modification time, or its extraction is null. -/
def fileFresh (env : CrawlEnv) (dir : String) (store : List VideoStoreEntry)
    (fname : String) : Prop :=
  VideoIndexer.isVideoFile fname = false
  ∨ (∃ e, VideoStore.selectByPath store (VideoIndexer.joinPath dir fname) = some e
      ∧ e.modified_date = (env.stat (VideoIndexer.joinPath dir fname)).mtime)
  ∨ VideoIndexer.extractVideoMetadata env (VideoIndexer.joinPath dir fname) = none

theorem joinPath_inj (dir a b : String)
    (h : VideoIndexer.joinPath dir a = VideoIndexer.joinPath dir b) : a = b := by
  unfold VideoIndexer.joinPath at h
  have hd := congrArg String.data h
  simp only [String.data_append] at hd
  have hab := List.append_cancel_left hd
  cases a
  cases b
  exact congrArg String.mk (by simpa using hab)

theorem selectByPath_mem (rows : List VideoStoreEntry) (p : String) (e : VideoStoreEntry)
    (h : VideoStore.selectByPath rows p = some e) : e ∈ rows ∧ e.full_path = p := by
  unfold VideoStore.selectByPath at h
  cases hf : rows.filter (fun x => x.full_path == p) with
  | nil => rw [hf] at h; simp at h
  | cons a t =>
    rw [hf] at h
    have ha : a = e := by simpa using h
    have hmem : a ∈ rows.filter (fun x => x.full_path == p) := by
      rw [hf]; exact List.mem_cons_self _ _
    have h2 := List.mem_filter.mp hmem
    rw [← ha]
    exact ⟨h2.1, by simpa using h2.2⟩

theorem selectByPath_upsert_other (rows : List VideoStoreEntry) (v e : VideoStoreEntry)
    (p : String) (h : VideoStore.selectByPath rows p = some e)
    (hpath : v.full_path ≠ p) (hid : v.id ≠ e.id) :
    VideoStore.selectByPath (VideoStore.upsertRow rows v) p = some e := by
  unfold VideoStore.selectByPath VideoStore.upsertRow
  rw [List.filter_append]
  have hv : ([v].filter (fun x => x.full_path == p)) = [] := by simp [hpath]
  rw [hv, List.append_nil]
  unfold VideoStore.selectByPath at h
  have hcomm : (rows.filter (VideoStore.keepRow v)).filter (fun x => x.full_path == p)
      = (rows.filter (fun x => x.full_path == p)).filter (VideoStore.keepRow v) := by
    rw [List.filter_filter, List.filter_filter]
    congr 1
    funext a
    exact Bool.and_comm _ _
  rw [hcomm]
  cases hf : rows.filter (fun x => x.full_path == p) with
  | nil => rw [hf] at h; simp at h
  | cons a t =>
    rw [hf] at h
    have ha : a = e := by simpa using h
    have hmem : a ∈ rows.filter (fun x => x.full_path == p) := by
      rw [hf]; exact List.mem_cons_self _ _
    have hap : a.full_path = p := by
      have := (List.mem_filter.mp hmem).2
      simpa using this
    have hkeep : VideoStore.keepRow v a = true := by
      simp only [VideoStore.keepRow, Bool.and_eq_true, Bool.not_eq_true',
        beq_eq_false_iff_ne, ne_eq]
      refine ⟨fun hcontra => hid (by rw [← ha]; exact hcontra.symm),
        fun hcontra => hpath (by rw [← hcontra, hap])⟩
    rw [List.filter_cons, if_pos hkeep]
    simp [ha]

theorem mem_upsertRow (rows : List VideoStoreEntry) (v r : VideoStoreEntry)
    (h : r ∈ VideoStore.upsertRow rows v) : r ∈ rows ∨ r = v := by
  unfold VideoStore.upsertRow at h
  rcases List.mem_append.mp h with h1 | h2
  · exact Or.inl (List.mem_of_mem_filter h1)
  · right; simpa using h2

theorem processFilesGo_fresh_noop (env : CrawlEnv) (dir : String) :
    ∀ (files : List String) (store : List VideoStoreEntry) (cnt : Nat),
      (∀ f ∈ files, fileFresh env dir store f) →
      VideoIndexer.processFilesGo env dir files store cnt = (store, cnt) := by
  intro files
  induction files with
  | nil => intro store cnt _; rfl
  | cons f rest ih =>
    intro store cnt h
    have hf := h f (List.mem_cons_self f rest)
    have hrest : ∀ g ∈ rest, fileFresh env dir store g :=
      fun g hg => h g (List.mem_cons_of_mem f hg)
    simp only [VideoIndexer.processFilesGo]
    by_cases hv : VideoIndexer.isVideoFile f = true
    · rw [if_pos hv]
      rcases hf with hnv | ⟨e, hsel, hmd⟩ | hext
      · rw [hnv] at hv
        exact absurd hv (by simp)
      · have hskip : VideoIndexer.shouldSkip env dir store f = true := by
          unfold VideoIndexer.shouldSkip
          rw [hsel]
          simp [hmd]
        rw [if_pos hskip]
        exact ih store cnt hrest
      · by_cases hskip : VideoIndexer.shouldSkip env dir store f = true
        · rw [if_pos hskip]
          exact ih store cnt hrest
        · rw [if_neg hskip, hext]
          exact ih store cnt hrest
    · rw [if_neg hv]
      exact ih store cnt hrest

theorem selectByPath_processFilesGo (env : CrawlEnv) (dir : String) :
    ∀ (files : List String) (store : List VideoStoreEntry) (cnt : Nat) (p : String)
      (e : VideoStoreEntry),
      VideoStore.selectByPath store p = some e →
      (∀ g ∈ files, VideoIndexer.joinPath dir g ≠ p) →
      (∀ g ∈ files, VideoIndexer.fileId dir g ≠ e.id) →
      VideoStore.selectByPath (VideoIndexer.processFilesGo env dir files store cnt).1 p
        = some e := by
  intro files
  induction files with
  | nil => intro store cnt p e hsel _ _; exact hsel
  | cons f rest ih =>
    intro store cnt p e hsel hpaths hids
    have hpr : ∀ g ∈ rest, VideoIndexer.joinPath dir g ≠ p :=
      fun g hg => hpaths g (List.mem_cons_of_mem f hg)
    have hir : ∀ g ∈ rest, VideoIndexer.fileId dir g ≠ e.id :=
      fun g hg => hids g (List.mem_cons_of_mem f hg)
    simp only [VideoIndexer.processFilesGo]
    by_cases hv : VideoIndexer.isVideoFile f = true
    · rw [if_pos hv]
      by_cases hskip : VideoIndexer.shouldSkip env dir store f = true
      · rw [if_pos hskip]
        exact ih store cnt p e hsel hpr hir
      · rw [if_neg hskip]
        cases hext : VideoIndexer.extractVideoMetadata env (VideoIndexer.joinPath dir f) with
        | none => exact ih store cnt p e hsel hpr hir
        | some md =>
          refine ih _ (cnt + 1) p e ?_ hpr hir
          refine selectByPath_upsert_other store (VideoIndexer.processFilesEntry env dir f md)
            e p hsel ?_ ?_
          · exact hpaths f (List.mem_cons_self f rest)
          · exact hids f (List.mem_cons_self f rest)
    · rw [if_neg hv]
      exact ih store cnt p e hsel hpr hir

theorem processFilesGo_makes_fresh (env : CrawlEnv) (dir : String) :
    ∀ (files : List String) (store : List VideoStoreEntry) (cnt : Nat),
      files.Pairwise (fun a b => a ≠ b) →
      files.Pairwise (fun a b => VideoIndexer.fileId dir a ≠ VideoIndexer.fileId dir b) →
      (∀ r ∈ store, ∀ g ∈ files, r.id = VideoIndexer.fileId dir g →
        r.full_path = VideoIndexer.joinPath dir g) →
      ∀ f ∈ files,
        fileFresh env dir (VideoIndexer.processFilesGo env dir files store cnt).1 f := by
  intro files
  induction files with
  | nil => intro store cnt _ _ _ f hf; simp at hf
  | cons f0 rest ih =>
    intro store cnt hnames hids hstore f hf
    obtain ⟨hn0, hnames2⟩ := List.pairwise_cons.mp hnames
    obtain ⟨hi0, hids2⟩ := List.pairwise_cons.mp hids
    have hstoreRest : ∀ r ∈ store, ∀ g ∈ rest, r.id = VideoIndexer.fileId dir g →
        r.full_path = VideoIndexer.joinPath dir g :=
      fun r hr g hg => hstore r hr g (List.mem_cons_of_mem f0 hg)
    simp only [VideoIndexer.processFilesGo]
    by_cases hv : VideoIndexer.isVideoFile f0 = true
    · rw [if_pos hv]
      by_cases hskip : VideoIndexer.shouldSkip env dir store f0 = true
      · rw [if_pos hskip]
        rcases List.mem_cons.mp hf with rfl | hfr
        · right; left
          unfold VideoIndexer.shouldSkip at hskip
          cases hsel : VideoStore.selectByPath store (VideoIndexer.joinPath dir f) with
          | none => rw [hsel] at hskip; simp at hskip
          | some e =>
            rw [hsel] at hskip
            have hmd : e.modified_date = (env.stat (VideoIndexer.joinPath dir f)).mtime := by
              have h2 : (env.stat (VideoIndexer.joinPath dir f)).mtime = e.modified_date := by
                simpa using hskip
              exact h2.symm
            refine ⟨e, ?_, hmd⟩
            apply selectByPath_processFilesGo env dir rest store cnt _ e hsel
            · intro g hg hcontra
              exact hn0 g hg (joinPath_inj dir g f hcontra).symm
            · intro g hg hcontra
              have he := selectByPath_mem store _ e hsel
              have hgp := hstore e he.1 g (List.mem_cons_of_mem f hg) hcontra.symm
              have hgg : VideoIndexer.joinPath dir f = VideoIndexer.joinPath dir g := by
                rw [← he.2, hgp]
              exact hn0 g hg (joinPath_inj dir f g hgg)
        · exact ih store cnt hnames2 hids2 hstoreRest f hfr
      · rw [if_neg hskip]
        cases hext : VideoIndexer.extractVideoMetadata env (VideoIndexer.joinPath dir f0) with
        | none =>
          rcases List.mem_cons.mp hf with rfl | hfr
          · right; right; exact hext
          · exact ih store cnt hnames2 hids2 hstoreRest f hfr
        | some md =>
          rcases List.mem_cons.mp hf with rfl | hfr
          · right; left
            refine ⟨VideoIndexer.processFilesEntry env dir f md, ?_, rfl⟩
            apply selectByPath_processFilesGo env dir rest _ (cnt + 1) _ _
              (selectByPath_upsert_self store (VideoIndexer.processFilesEntry env dir f md))
            · intro g hg hcontra
              exact hn0 g hg (joinPath_inj dir g f hcontra).symm
            · intro g hg hcontra
              exact hi0 g hg hcontra.symm
          · refine ih (VideoStore.upsertRow store (VideoIndexer.processFilesEntry env dir f0 md))
              (cnt + 1) hnames2 hids2 ?_ f hfr
            intro r hr g hg hid2
            rcases mem_upsertRow store _ r hr with hrs | rfl
            · exact hstoreRest r hrs g hg hid2
            · exact absurd hid2 (hi0 g hg)
    · rw [if_neg hv]
      rcases List.mem_cons.mp hf with rfl | hfr
      · left
        simpa using hv
      · exact ih store cnt hnames2 hids2 hstoreRest f hfr

/-- C2 (amended): a second crawl of a directory whose files' modification
times are unchanged performs zero store writes and leaves the store
untouched, provided the files' names are pairwise distinct, their
sanitized record ids are pairwise distinct, and no pre-existing record
carries a file's id while sitting at a different path.  (Without the id
conditions, addVideo's INSERT OR REPLACE — which also replaces on the id
primary key — lets id-colliding files delete each other's records, so
they are re-extracted and re-written on every crawl; see the
counterexample.) -/
theorem c2_unchanged_recrawl_writes_nothing (env : CrawlEnv) (dir : String)
    (files : List String) (store0 : List VideoStoreEntry)
    (hnames : files.Pairwise (fun a b => a ≠ b))
    (hids : files.Pairwise
      (fun a b => VideoIndexer.fileId dir a ≠ VideoIndexer.fileId dir b))
    (hstore : ∀ r ∈ store0, ∀ g ∈ files, r.id = VideoIndexer.fileId dir g →
        r.full_path = VideoIndexer.joinPath dir g) :
    VideoIndexer.processFilesInDirectory env dir files
        (VideoIndexer.processFilesInDirectory env dir files store0).1
      = ((VideoIndexer.processFilesInDirectory env dir files store0).1, 0) := by
  unfold VideoIndexer.processFilesInDirectory
  exact processFilesGo_fresh_noop env dir files _ 0
    (fun f hf => processFilesGo_makes_fresh env dir files store0 0 hnames hids hstore f hf)

/-- A probe stream record of type video. -/
def videoStreamOk : StreamInfo :=
  { codec_type := "video"
    width := some 1920
    height := some 1080
    codec_name := some "h264"
    r_frame_rate := none }

/-- A probe format record with duration and size fields. -/
def formatOk : FormatInfo :=
  { duration := some "12.5"
    size := some "999" }

/-- A probe document containing one video stream. -/
def probeDataOk : FfprobeData :=
  { streams := some [videoStreamOk]
    format := some formatOk }

/-- An environment where probing succeeds for every file and the stat'd
times never change between crawls. -/
def envCollide : CrawlEnv :=
  { versionCode := some 0
    probe := fun _ => some (0, some probeDataOk)
    thumbnail := fun _ => none
    stat := fun _ => { mtime := 100, ctime := 90, size := 1234 }
    parseFloatNum := fun _ => none
    parseNum := fun _ => none
    nowSec := 0 }

/-- Counterexample for C2 as stated: the same-directory video files
"a.b.mp4" and "a?b.mp4" sanitize to the same record id, so each upsert
(SQLite REPLACE, which also deletes rows conflicting on the id primary
key) removes the other file's record; although no modification time
changed, the second crawl performs 2 store writes, not 0. -/
theorem c2_unchanged_recrawl_counterexample :
    (VideoIndexer.processFilesInDirectory envCollide "d" ["a.b.mp4", "a?b.mp4"]
        (VideoIndexer.processFilesInDirectory envCollide "d" ["a.b.mp4", "a?b.mp4"] []).1).2
      = 2
    ∧ (VideoIndexer.processFilesInDirectory envCollide "d" ["a.b.mp4", "a?b.mp4"]
        (VideoIndexer.processFilesInDirectory envCollide "d" ["a.b.mp4", "a?b.mp4"] []).1).2
      ≠ 0
    ∧ VideoIndexer.fileId "d" "a.b.mp4" = VideoIndexer.fileId "d" "a?b.mp4" :=
  ⟨by decide, by decide, by decide⟩

/-- Witness for the amended C2: two distinct-id files crawled twice under
unchanged stat times — the second crawl writes nothing. -/
theorem c2_unchanged_recrawl_writes_nothing_witness :
    VideoIndexer.processFilesInDirectory envCollide "d" ["a.mp4", "b.mp4"]
        (VideoIndexer.processFilesInDirectory envCollide "d" ["a.mp4", "b.mp4"] []).1
      = ((VideoIndexer.processFilesInDirectory envCollide "d" ["a.mp4", "b.mp4"] []).1, 0) :=
  c2_unchanged_recrawl_writes_nothing envCollide "d" ["a.mp4", "b.mp4"] []
    (by decide) (by decide) (fun r hr => absurd hr (List.not_mem_nil r))
